import Mathlib

/-
Verification of the markdown-to-office-document converter.
Shallow embedding of the python sources under src/:
  src/docx_tools/helpers.py   (inline formatting, escapes, tables, lists)
  src/xlsx_tools/base_xlsx_tool.py  (two-pass spreadsheet conversion)
The module xlsx_tools/helpers.py (formula reference resolver and
table writer) is absent from src/; the definitions standing for it are
modelled from the specification and the unit tests in
src/tests/test_xlsx_creation.py, and are marked as such.
-/

set_option maxRecDepth 10000

-- ---------------------------------------------------------------------------
-- Basic character and string helpers shared by the translations
-- ---------------------------------------------------------------------------

/-- Whitespace as used by python str.strip and the regex class backslash-s
(space, tab, newline, carriage return; the rarely used form feed and
vertical tab of python are not produced by the inputs in scope). -/
def isPyWs (c : Char) : Bool :=
  c = ' ' || c = '\t' || c = '\n' || c = '\r'

/-- python str.strip: remove leading and trailing whitespace. -/
def pyStrip (s : String) : String :=
  String.mk (((s.data.dropWhile isPyWs).reverse.dropWhile isPyWs).reverse)

/-- python str.lstrip with no argument: count of leading whitespace chars
is what the list code uses (len(line) - len(line.lstrip())). -/
def leadingWs (s : String) : Nat :=
  (s.data.takeWhile isPyWs).length

/-- True when the first list starts with the second (character lists). -/
def startsWithCh : List Char → List Char → Bool
  | _, [] => true
  | [], _ :: _ => false
  | c :: cs, d :: ds => c = d && startsWithCh cs ds

/-- python substring containment (the `in` operator on str). -/
def containsCh : List Char → List Char → Bool
  | [], sub => sub.isEmpty
  | c :: cs, sub => startsWithCh (c :: cs) sub || containsCh cs sub

/-- python substring containment at the String level. -/
def containsSub (s sub : String) : Bool :=
  containsCh s.data sub.data

/-- python str.startswith (structural, so that kernel evaluation works). -/
def strStartsWith (s t : String) : Bool :=
  startsWithCh s.data t.data

/-- python str.endswith. -/
def strEndsWith (s t : String) : Bool :=
  startsWithCh s.data.reverse t.data.reverse

/-- python str.split(sep) with a non-empty separator: non-overlapping
matches scanned left to right. -/
def splitOnChGo : Nat → List Char → List Char → List Char → List (List Char)
  | 0, l, acc, _ => [acc.reverse ++ l]
  | _ + 1, [], acc, _ => [acc.reverse]
  | fuel + 1, c :: rest, acc, sep =>
      if startsWithCh (c :: rest) sep then
        acc.reverse :: splitOnChGo fuel ((c :: rest).drop sep.length) [] sep
      else
        splitOnChGo fuel rest (c :: acc) sep

/-- python str.split(sep) at the String level. -/
def strSplitOn (s sep : String) : List String :=
  (splitOnChGo (s.data.length + 1) s.data [] sep.data).map String.mk

/-- First-match association-list lookup (python dict read). -/
def lookupA {α : Type} : List (String × α) → String → Option α
  | [], _ => none
  | (k, v) :: rest, key => if k = key then some v else lookupA rest key

/-- python dict assignment: update the first occurrence in place, else
append at the end (python dicts are insertion ordered). -/
def insertA {α : Type} : List (String × α) → String → α → List (String × α)
  | [], key, v => [(key, v)]
  | (k, w) :: rest, key, v =>
      if k = key then (key, v) :: rest else (k, w) :: insertA rest key v

/-- python dict.pop(key): returns the removed value and the remaining map. -/
def popA {α : Type} : List (String × α) → String → Option α × List (String × α)
  | [], _ => (none, [])
  | (k, v) :: rest, key =>
      if k = key then (some v, rest)
      else
        let p := popA rest key
        (p.1, (k, v) :: p.2)

/-- python dict.setdefault(key, v): insert only when the key is absent. -/
def setdefaultA {α : Type} (m : List (String × α)) (key : String) (v : α) :
    List (String × α) :=
  match lookupA m key with
  | some _ => m
  | none => m ++ [(key, v)]

-- ---------------------------------------------------------------------------
-- Escape protector (src/docx_tools/helpers.py: handle_escapes,
-- _restore_escapes).  The python module-level map and counter are threaded
-- explicitly; parse_inline_formatting starts each call from a fresh state.
-- ---------------------------------------------------------------------------

/-- handle_escapes: re.sub of backslash-dot with a private-use placeholder
chr(0xE000 + counter); the dot of the pattern does not match a newline, in
which case the scan keeps the backslash and moves on, exactly as re.sub
does on a failed match position.  Returns the rewritten text, the counter
and the placeholder map. -/
def handleEscapesGo : List Char → Nat → List (Char × Char) →
    List Char × Nat × List (Char × Char)
  | [], n, m => ([], n, m)
  | c :: rest, n, m =>
      if c = '\\' then
        match rest with
        | [] => ([c], n, m)
        | d :: ds =>
            if d = '\n' then
              let r := handleEscapesGo (d :: ds) n m
              (c :: r.1, r.2)
            else
              let ph := Char.ofNat (0xE000 + n)
              let r := handleEscapesGo ds (n + 1) (m ++ [(ph, d)])
              (ph :: r.1, r.2)
      else
        let r := handleEscapesGo rest n m
        (c :: r.1, r.2)

/-- handle_escapes at the String level, from a fresh escape state. -/
def handle_escapes (s : String) : String × List (Char × Char) :=
  let r := handleEscapesGo s.data 0 []
  (String.mk r.1, r.2.2)

/-- Replace every occurrence of one character by another (the placeholder
and its original are single characters, so python str.replace degenerates
to a character map). -/
def replaceChar (l : List Char) (p c : Char) : List Char :=
  l.map (fun ch => if ch = p then c else ch)

/-- Source _restore_escapes: if the map is empty return the text unchanged, else
replace each placeholder with its original character, in insertion order. -/
def restore_escapes (m : List (Char × Char)) (text : String) : String :=
  if m.isEmpty then text
  else String.mk (m.foldl (fun t pc => replaceChar t pc.1 pc.2) text.data)

-- ---------------------------------------------------------------------------
-- C6 theorems: protect then restore is the identity on backslash-free text
-- ---------------------------------------------------------------------------

theorem handleEscapesGo_no_backslash (l : List Char) (h : '\\' ∉ l) :
    handleEscapesGo l 0 [] = (l, 0, []) := by
  induction l with
  | nil => rfl
  | cons c rest ih =>
      have hc : c ≠ '\\' := fun hcc => h (hcc ▸ List.mem_cons_self c rest)
      have hrest : '\\' ∉ rest := fun hr => h (List.mem_cons_of_mem c hr)
      unfold handleEscapesGo
      rw [if_neg hc, ih hrest]

/-- C6: the escape-protection transform leaves backslash-free text alone
with an empty map, and restoration with an empty map is the identity. -/
theorem protect_restore_id (s : String) (h : '\\' ∉ s.data) :
    restore_escapes (handle_escapes s).2 (handle_escapes s).1 = s := by
  unfold handle_escapes
  rw [handleEscapesGo_no_backslash s.data h]
  simp [restore_escapes]

theorem protect_restore_id_witness :
    '\\' ∉ ("hello *world*".data) ∧
      restore_escapes (handle_escapes "hello *world*").2
        (handle_escapes "hello *world*").1 = "hello *world*" :=
  ⟨by decide, protect_restore_id "hello *world*" (by decide)⟩

-- ---------------------------------------------------------------------------
-- Inline formatting (src/docx_tools/helpers.py: _INLINE_FORMAT_RE,
-- _parse_formatting_segment, parse_inline_formatting).  A run models the
-- attributes that the python code sets on a docx run.
-- ---------------------------------------------------------------------------

structure Run where
  text : String
  bold : Bool := false
  italic : Bool := false
  strike : Bool := false
  underline : Bool := false
  font : Option String := none
  link : Option String := none
  isBreak : Bool := false
deriving Repr, DecidableEq

/-- One repetition of the alternation inside the triple-star alternative of
_INLINE_FORMAT_RE: a non-star character, or a star not followed by two
stars. -/
def xStepBoldItalic : List Char → Option (Nat × List Char)
  | [] => none
  | c :: rest =>
      if c ≠ '*' then some (1, rest)
      else if startsWithCh rest ['*', '*'] then none
      else some (1, rest)

/-- One repetition inside the double-star alternative: a non-star
character, or a star not followed by another star. -/
def xStepBold : List Char → Option (Nat × List Char)
  | [] => none
  | c :: rest =>
      if c ≠ '*' then some (1, rest)
      else if startsWithCh rest ['*'] then none
      else some (1, rest)

/-- One repetition inside the single-star italic alternative: a non-star
character, or a complete nested double-star bold group. -/
def xStepItalic : List Char → Option (Nat × List Char)
  | [] => none
  | c :: rest =>
      if c ≠ '*' then some (1, rest)
      else
        match rest with
        | '*' :: r2 =>
            let k := (r2.takeWhile (fun ch => ch ≠ '*')).length
            if k ≥ 1 ∧ startsWithCh (r2.drop k) ['*', '*'] then
              some (2 + k + 2, r2.drop (k + 2))
            else none
        | _ => none

/-- States reachable by one-or-more repetitions of a deterministic step, in
increasing repetition order; used to emulate greedy plus with
backtracking. -/
def repPlus (step : List Char → Option (Nat × List Char)) :
    Nat → List Char → List (Nat × List Char)
  | 0, _ => []
  | fuel + 1, l =>
      match step l with
      | none => []
      | some (n, rest) =>
          (n, rest) :: (repPlus step fuel rest).map (fun p => (n + p.1, p.2))

/-- Greedy backtracking for a plus-repetition followed by a literal closer:
prefer the most repetitions whose remaining input starts with the
closer; result counts the closer too. -/
def findClose (cands : List (Nat × List Char)) (closer : List Char) :
    Option Nat :=
  cands.reverse.findSome? fun p =>
    if startsWithCh p.2 closer then some (p.1 + closer.length) else none

/-- Lazy dot-plus followed by a literal closer (python dot does not match a
newline): the least number of non-newline characters, at least one,
after which the closer follows.  Returns that count. -/
def lazyDotClose : Nat → List Char → List Char → Option Nat
  | 0, _, _ => none
  | fuel + 1, l, closer =>
      match l with
      | [] => none
      | c :: rest =>
          if c = '\n' then none
          else if startsWithCh rest closer then some 1
          else (lazyDotClose fuel rest closer).map (· + 1)

/-- Alternative 1 of _INLINE_FORMAT_RE: triple-star bold italic. -/
def matchTripleStar (l : List Char) : Option Nat :=
  if startsWithCh l ['*', '*', '*'] then
    (findClose (repPlus xStepBoldItalic l.length (l.drop 3)) ['*', '*', '*']).map
      (fun n => 3 + n)
  else none

/-- Alternative 2: double-star bold. -/
def matchDoubleStar (l : List Char) : Option Nat :=
  if startsWithCh l ['*', '*'] then
    (findClose (repPlus xStepBold l.length (l.drop 2)) ['*', '*']).map
      (fun n => 2 + n)
  else none

/-- Alternative 3: double-tilde strikethrough (lazy content). -/
def matchStrike (l : List Char) : Option Nat :=
  if startsWithCh l ['~', '~'] then
    (lazyDotClose l.length (l.drop 2) ['~', '~']).map (fun k => 2 + k + 2)
  else none

/-- Alternative 4: double-underscore underline, rejecting a third leading
underscore (lazy content). -/
def matchUnderscore (l : List Char) : Option Nat :=
  if startsWithCh l ['_', '_'] then
    match l.drop 2 with
    | '_' :: _ => none
    | _ =>
        (lazyDotClose l.length (l.drop 2) ['_', '_']).map (fun k => 2 + k + 2)
  else none

/-- Alternative 5: single-star italic tolerating nested double-star bold. -/
def matchItalicAlt (l : List Char) : Option Nat :=
  match l with
  | '*' :: rest =>
      (findClose (repPlus xStepItalic l.length rest) ['*']).map (fun n => 1 + n)
  | _ => none

/-- Alternative 6: backtick code span. -/
def matchCode (l : List Char) : Option Nat :=
  match l with
  | '`' :: rest =>
      let k := (rest.takeWhile (fun ch => ch ≠ '`')).length
      if k ≥ 1 ∧ startsWithCh (rest.drop k) ['`'] then some (1 + k + 1)
      else none
  | _ => none

/-- Alternative 7: bracket-paren link span. -/
def matchLink (l : List Char) : Option Nat :=
  match l with
  | '[' :: rest =>
      let k1 := (rest.takeWhile (fun ch => ch ≠ ']')).length
      match rest.drop k1 with
      | ']' :: '(' :: r2 =>
          let k2 := (r2.takeWhile (fun ch => ch ≠ ')')).length
          match r2.drop k2 with
          | ')' :: _ => some (1 + k1 + 2 + k2 + 1)
          | _ => none
      | _ => none
  | _ => none

/-- The alternation of _INLINE_FORMAT_RE at one position, in the order the
source lists the alternatives. -/
def reTryAlts (l : List Char) : Option Nat :=
  match matchTripleStar l with
  | some n => some n
  | none =>
  match matchDoubleStar l with
  | some n => some n
  | none =>
  match matchStrike l with
  | some n => some n
  | none =>
  match matchUnderscore l with
  | some n => some n
  | none =>
  match matchItalicAlt l with
  | some n => some n
  | none =>
  match matchCode l with
  | some n => some n
  | none => matchLink l

/-- Leftmost match of _INLINE_FORMAT_RE: position and length. -/
def reFindMatch : List Char → Option (Nat × Nat)
  | [] => none
  | c :: rest =>
      match reTryAlts (c :: rest) with
      | some n => some (0, n)
      | none => (reFindMatch rest).map (fun p => (p.1 + 1, p.2))

/-- re.split with the whole pattern as one capture group: alternating
unmatched fragments and matches (every match is non-empty, so the scan
advances). -/
def reSplitGo : Nat → List Char → List String
  | 0, l => [String.mk l]
  | fuel + 1, l =>
      match reFindMatch l with
      | none => [String.mk l]
      | some (p, n) =>
          String.mk (l.take p) :: String.mk ((l.drop p).take n) ::
            reSplitGo fuel (l.drop (p + n))

def reSplit (s : String) : List String :=
  reSplitGo (s.data.length + 1) s.data

/-- python slice part[n:-n]. -/
def dropEnds (s : String) (n : Nat) : String :=
  String.mk ((s.data.drop n).take (s.data.length - 2 * n))

/-- Source _apply_formatting: set bold or italic on a run when inherited. -/
def applyFormatting (r : Run) (bold italic : Bool) : Run :=
  { r with bold := if bold then true else r.bold,
           italic := if italic then true else r.italic }

/-- The secondary lazy link match inside the link branch; fails when a
newline precedes the closing bracket or parenthesis, as the python dot
would. -/
def extractLink (l : List Char) : Option (String × String) :=
  match l with
  | '[' :: rest =>
      let t := rest.takeWhile (fun c => c ≠ ']' && c ≠ '\n')
      match rest.drop t.length with
      | ']' :: '(' :: r2 =>
          let u := r2.takeWhile (fun c => c ≠ ')' && c ≠ '\n')
          match r2.drop u.length with
          | ')' :: _ => some (String.mk t, String.mk u)
          | _ => none
      | _ => none
  | _ => none

/-- Source _parse_formatting_segment: the for-loop over the regex split parts and
the recursion into stripped spans, with the recursion expressed on a fuel
budget; the escape map is the module-level _escape_map of the source,
threaded explicitly. -/
def pfsGo : Nat → List (Char × Char) → List String → Bool → Bool →
    List Run → List Run
  | 0, _, _, _, _, acc => acc
  | _ + 1, _, [], _, _, acc => acc
  | fuel + 1, m, part :: rest, bold, italic, acc =>
      if part = "" then pfsGo fuel m rest bold italic acc
      else if strStartsWith part "***" && strEndsWith part "***" &&
          decide (6 < part.data.length) then
        pfsGo fuel m rest bold italic
          (pfsGo fuel m (reSplit (dropEnds part 3)) true true acc)
      else if strStartsWith part "**" && strEndsWith part "**" then
        pfsGo fuel m rest bold italic
          (pfsGo fuel m (reSplit (dropEnds part 2)) true italic acc)
      else if strStartsWith part "~~" && strEndsWith part "~~" then
        let r : Run := { text := restore_escapes m (dropEnds part 2), strike := true }
        pfsGo fuel m rest bold italic (acc ++ [applyFormatting r bold italic])
      else if strStartsWith part "__" && strEndsWith part "__" &&
          !strStartsWith part "___" then
        let r : Run := { text := restore_escapes m (dropEnds part 2), underline := true }
        pfsGo fuel m rest bold italic (acc ++ [applyFormatting r bold italic])
      else if strStartsWith part "*" && strEndsWith part "*" &&
          !strStartsWith part "**" then
        pfsGo fuel m rest bold italic
          (pfsGo fuel m (reSplit (dropEnds part 1)) bold true acc)
      else if strStartsWith part "`" && strEndsWith part "`" then
        let r : Run := { text := restore_escapes m (dropEnds part 1), font := some "Courier New" }
        pfsGo fuel m rest bold italic (acc ++ [applyFormatting r bold italic])
      else if strStartsWith part "[" && containsSub part "](" &&
          strEndsWith part ")" then
        match extractLink part.data with
        | some tu =>
            let r : Run := { text := restore_escapes m tu.1, link := some (restore_escapes m tu.2), underline := true }
            pfsGo fuel m rest bold italic (acc ++ [r])
        | none => pfsGo fuel m rest bold italic acc
      else
        let r : Run := { text := restore_escapes m part }
        pfsGo fuel m rest bold italic (acc ++ [applyFormatting r bold italic])

/-- Source _parse_formatting_segment on a whole segment, with a fuel budget that
is ample for the nesting depth any input of that length can produce. -/
def parse_formatting_segment (m : List (Char × Char)) (text : String)
    (bold italic : Bool) (acc : List Run) : List Run :=
  pfsGo ((text.data.length + 2) * (text.data.length + 2)) m (reSplit text)
    bold italic acc

/-- The loop of parse_inline_formatting over the hard-line-break segments:
every part except a trailing empty one is parsed, and an explicit break
run is appended between parts. -/
def piGo (m : List (Char × Char)) : List String → Bool → Bool →
    List Run → List Run
  | [], _, _, acc => acc
  | [last], b, i, acc =>
      if last = "" then acc else parse_formatting_segment m last b i acc
  | part :: rest, b, i, acc =>
      let brk : Run := { text := "", isBreak := true }
      piGo m rest b i (parse_formatting_segment m part b i acc ++ [brk])

/-- parse_inline_formatting: fresh escape state, escape protection, split
on the two-space-newline hard break, then segment parsing. -/
def parse_inline_formatting (text : String) (bold italic : Bool) : List Run :=
  let he := handle_escapes text
  piGo he.2 (strSplitOn he.1 "  \n") bold italic []

/-- C4: nested italic inside bold yields three runs with inherited bold. -/
theorem nested_bold_italic_runs :
    parse_inline_formatting "**a *b* c**" false false =
      [{ text := "a ", bold := true },
       { text := "b", bold := true, italic := true },
       { text := " c", bold := true }] := by
  decide

/-- C5: backslash-escaped asterisks are protected from the formatting
patterns and restored literally, producing one unformatted run. -/
theorem escaped_asterisks_literal_run :
    parse_inline_formatting "\\*x\\*" false false = [{ text := "*x*" }] := by
  decide

-- ---------------------------------------------------------------------------
-- Table grid parser (src/docx_tools/helpers.py: parse_table; the
-- spreadsheet renderer imports the same Table Grid Parser, which the
-- specification states is shared by both renderers).
-- ---------------------------------------------------------------------------

/-- The collection condition of parse_table on one line: its stripped form
starts and ends with a pipe. -/
def pipeBounded (l : String) : Bool :=
  strStartsWith (pyStrip l) "|" && strEndsWith (pyStrip l) "|"

/-- The pipe-bounded line collector of parse_table: consecutive stripped
lines bounded by pipes. -/
def collectTableLines : List String → List String
  | [] => []
  | l :: rest =>
      if pipeBounded l then pyStrip l :: collectTableLines rest else []

/-- The separator test of parse_table: substring containment of one of the
four markers anywhere in the whole line. -/
def isSepLine (l : String) : Bool :=
  containsSub l "---" || containsSub l ":-:" || containsSub l ":--" ||
    containsSub l "--:"

/-- One grid row: split on pipe, keep the inner cells (python slice 1:-1),
strip each cell. -/
def rowCells (l : String) : List String :=
  (((strSplitOn l "|").drop 1).dropLast).map pyStrip

/-- The row-building loop of parse_table (continue on separator lines). -/
def buildGrid : List String → List (List String)
  | [] => []
  | l :: rest =>
      if isSepLine l then buildGrid rest else rowCells l :: buildGrid rest

/-- parse_table on the suffix of the document starting at the current line:
the grid (none when fewer than two pipe-bounded lines) and the number of
lines consumed (one on failure, as the python code returns start_idx+1). -/
def parse_table (suffix : List String) : Option (List (List String)) × Nat :=
  let tls := collectTableLines suffix
  if tls.length < 2 then (none, 1) else (some (buildGrid tls), tls.length)

/-- Stated from the claim text, for comparison with the source: one cell of
an alignment-separator row is a non-empty dash sequence optionally framed
by colons. -/
def specAlignSepCell (cell : String) : Bool :=
  let l := cell.data
  let l1 := if l.head? = some ':' then l.drop 1 else l
  let core := if l1.getLast? = some ':' then l1.dropLast else l1
  !core.isEmpty && core.all (fun c => c = '-')

/-- Stated from the claim text: a line whose cell content matches the
alignment-separator pattern in every cell. -/
def specAlignSepLine (l : String) : Bool :=
  !(rowCells l).isEmpty && (rowCells l).all specAlignSepCell

theorem buildGrid_filter (tls : List String) :
    buildGrid tls = (tls.filter (fun l => !isSepLine l)).map rowCells := by
  induction tls with
  | nil => rfl
  | cons l rest ih =>
      by_cases h : isSepLine l = true
      · simp [buildGrid, h, ih]
      · simp [buildGrid, Bool.not_eq_true _ ▸ h, ih]

/-- C7 counterexample: a consumed line that contains a dash triple inside
ordinary cell text is dropped from the grid although no cell of it matches
the alignment-separator pattern, so exclusion is not equivalent to the
pattern on cell content. -/
theorem sep_substring_not_pattern :
    parse_table ["| a | b |", "| x---y | c |"] = (some [["a", "b"]], 2) ∧
      specAlignSepLine "| x---y | c |" = false := by
  decide

/-- C7 amended: in parse_table a consumed line is excluded from the grid
exactly when the whole line contains one of the four substrings dash-dash-
dash, colon-dash-colon, colon-dash-dash, dash-dash-colon; every other
consumed line becomes a row, split on pipe, trimmed, with the bounding
empty cells discarded. -/
theorem table_rows_are_nonseparator_lines (suffix : List String)
    (g : List (List String)) (n : Nat) (h : parse_table suffix = (some g, n)) :
    g = ((collectTableLines suffix).filter (fun l => !isSepLine l)).map rowCells := by
  unfold parse_table at h
  by_cases hlen : (collectTableLines suffix).length < 2
  · simp [hlen] at h
  · simp [hlen] at h
    rw [← h.1, buildGrid_filter]

theorem table_rows_are_nonseparator_lines_witness :
    parse_table ["| a | b |", "|---|---|", "| 1 | 2 |"] =
        (some [["a", "b"], ["1", "2"]], 3) ∧
      [["a", "b"], ["1", "2"]] =
        ((collectTableLines ["| a | b |", "|---|---|", "| 1 | 2 |"]).filter
          (fun l => !isSepLine l)).map rowCells :=
  ⟨by decide, table_rows_are_nonseparator_lines
    ["| a | b |", "|---|---|", "| 1 | 2 |"] [["a", "b"], ["1", "2"]] 3
    (by decide)⟩

/-- C8: a two-line block of pipe-bounded lines whose second line is the
separator is accepted with a one-row grid holding only the header cells,
and a one-line block is rejected with one line consumed. -/
theorem two_line_block_accepted_one_line_rejected (h s l : String)
    (h1 : pipeBounded h = true) (h2 : pipeBounded s = true)
    (h3 : isSepLine (pyStrip h) = false) (h4 : isSepLine (pyStrip s) = true)
    (h5 : pipeBounded l = true) :
    parse_table [h, s] = (some [rowCells (pyStrip h)], 2) ∧
      parse_table [l] = (none, 1) := by
  constructor
  · simp [parse_table, collectTableLines, h1, h2, buildGrid, h3, h4]
  · simp [parse_table, collectTableLines, h5]

theorem two_line_block_witness :
    parse_table ["| a | b |", "|---|---|"] = (some [["a", "b"]], 2) ∧
      parse_table ["| only |"] = (none, 1) := by
  have := two_line_block_accepted_one_line_rejected "| a | b |" "|---|---|"
    "| only |" (by decide) (by decide) (by decide) (by decide) (by decide)
  simpa using this

-- ---------------------------------------------------------------------------
-- List nesting (src/docx_tools/helpers.py: process_list_items)
-- ---------------------------------------------------------------------------

def bullet_styles : List String := ["List Bullet", "List Bullet 2", "List Bullet 3"]

def number_styles : List String := ["List Number", "List Number 2", "List Number 3"]

/-- The style selection of process_list_items: clamped indexing into the
three-entry style table of the list kind
(style_array[min(level, len(style_array) - 1)]). -/
def styleChoice (isOrdered : Bool) (level : Nat) : String :=
  let arr := if isOrdered then number_styles else bullet_styles
  arr.getD (min level (arr.length - 1)) ""

/-- The per-line nesting level of process_list_items:
(len(line) - len(line.lstrip())) // 3. -/
def lineLevel (original : String) : Nat :=
  leadingWs original / 3

/-- Ordered item pattern of the source: digits, dot, whitespace, content. -/
def matchOrderedItem (s : String) : Option String :=
  let ds := s.data.takeWhile (fun c => c.isDigit)
  if ds.isEmpty then none
  else
    match s.data.drop ds.length with
    | '.' :: r =>
        let ws := r.takeWhile isPyWs
        if ws.isEmpty then none
        else
          let content := r.dropWhile isPyWs
          if content.isEmpty then none else some (String.mk content)
    | _ => none

/-- Unordered item pattern of the source: dash, star or plus marker, then
whitespace and content. -/
def matchUnorderedItem (s : String) : Option String :=
  match s.data with
  | [] => none
  | c :: r =>
      if c = '-' || c = '*' || c = '+' then
        let ws := r.takeWhile isPyWs
        if ws.isEmpty then none
        else
          let content := r.dropWhile isPyWs
          if content.isEmpty then none else some (String.mk content)
      else none

def matchListItem (isOrdered : Bool) (s : String) : Option String :=
  if isOrdered then matchOrderedItem s else matchUnorderedItem s

mutual

/-- The main loop of process_list_items: emit the current item when its
line level equals the call level and the pattern of the list kind matches,
then run the look-ahead loop and continue. -/
def plOuter : Nat → List String → Nat → Bool → Nat →
    List (String × List Run) → Nat × List (String × List Run)
  | 0, _, i, _, _, doc => (i, doc)
  | fuel + 1, lines, i, isOrdered, level, doc =>
      if i < lines.length then
        let original := lines.getD i ""
        let line := pyStrip original
        if lineLevel original ≠ level then (i, doc)
        else
          match matchListItem isOrdered line with
          | none => (i, doc)
          | some content =>
              let para := (styleChoice isOrdered level,
                parse_inline_formatting content false false)
              let r := plLook fuel lines (i + 1) isOrdered level (doc ++ [para])
              plOuter fuel lines r.1 isOrdered level r.2
      else (i, doc)

/-- The look-ahead loop of process_list_items: skip blank lines, recurse
into strictly deeper list items (of either kind), stop otherwise. -/
def plLook : Nat → List String → Nat → Bool → Nat →
    List (String × List Run) → Nat × List (String × List Run)
  | 0, _, i, _, _, doc => (i, doc)
  | fuel + 1, lines, i, isOrdered, level, doc =>
      if i < lines.length then
        let nextOriginal := lines.getD i ""
        let nextLine := pyStrip nextOriginal
        if nextLine = "" then plLook fuel lines (i + 1) isOrdered level doc
        else if lineLevel nextOriginal > level then
          let isNO := (matchListItem true nextLine).isSome
          let isNU := (matchListItem false nextLine).isSome
          if isNO || isNU then
            let r := plOuter fuel lines i isNO (lineLevel nextOriginal) doc
            plLook fuel lines r.1 isOrdered level r.2
          else (i, doc)
        else (i, doc)
      else (i, doc)

end

/-- process_list_items with a fuel budget ample for any input of the given
length; the document is the list of produced (style, runs) paragraphs. -/
def process_list_items (lines : List String) (start : Nat) (isOrdered : Bool)
    (level : Nat) : Nat × List (String × List Run) :=
  plOuter ((lines.length + 2) * (lines.length + 2)) lines start isOrdered level []

theorem takeWhile_three_spaces (l : List Char) :
    (' ' :: ' ' :: ' ' :: l).takeWhile isPyWs =
      ' ' :: ' ' :: ' ' :: l.takeWhile isPyWs := by
  simp [List.takeWhile_cons, show isPyWs ' ' = true from rfl]

/-- C9: three leading spaces give nesting level one and six give level two
(for a line whose own text has no leading whitespace); the style table has
three entries per kind and levels at or beyond it reuse the deepest entry;
and a concrete four-level bullet run shows the styles actually applied. -/
theorem list_levels_and_clamped_styles (s : String) (hs : leadingWs s = 0) :
    (lineLevel ("   " ++ s) = 1 ∧ lineLevel ("      " ++ s) = 2) ∧
      (∀ isOrdered level, 2 ≤ level →
        styleChoice isOrdered level = styleChoice isOrdered 2) ∧
      process_list_items ["- a", "   - b", "      - c", "         - d"] 0
          false 0 =
        (4, [("List Bullet", [{ text := "a" }]),
             ("List Bullet 2", [{ text := "b" }]),
             ("List Bullet 3", [{ text := "c" }]),
             ("List Bullet 3", [{ text := "d" }])]) := by
  have h0 : s.data.takeWhile isPyWs = [] := by
    unfold leadingWs at hs
    exact List.length_eq_zero.mp hs
  refine ⟨⟨?_, ?_⟩, ?_, ?_⟩
  · show ((("   " ++ s).data.takeWhile isPyWs).length) / 3 = 1
    have hd : ("   " ++ s).data = ' ' :: ' ' :: ' ' :: s.data := rfl
    rw [hd, takeWhile_three_spaces, h0]
    rfl
  · show ((("      " ++ s).data.takeWhile isPyWs).length) / 3 = 2
    have hd : ("      " ++ s).data =
        ' ' :: ' ' :: ' ' :: ' ' :: ' ' :: ' ' :: s.data := rfl
    rw [hd]
    rw [show (' ' :: ' ' :: ' ' :: ' ' :: ' ' :: ' ' :: s.data).takeWhile isPyWs
        = ' ' :: ' ' :: ' ' :: ' ' :: ' ' :: ' ' :: s.data.takeWhile isPyWs by
      simp [List.takeWhile_cons, show isPyWs ' ' = true from rfl]]
    rw [h0]
    rfl
  · intro isOrdered level hlev
    have hmin : min level 2 = 2 := min_eq_right hlev
    cases isOrdered <;>
      simp [styleChoice, bullet_styles, number_styles, hmin]
  · decide

theorem list_levels_and_clamped_styles_witness :
    leadingWs "- x" = 0 ∧ lineLevel ("   " ++ "- x") = 1 ∧
      styleChoice false 7 = styleChoice false 2 :=
  ⟨by decide, (list_levels_and_clamped_styles "- x" (by decide)).1.1,
    (list_levels_and_clamped_styles "- x" (by decide)).2.1 false 7 (by decide)⟩

-- ---------------------------------------------------------------------------
-- Formula reference resolver.  The module that implements it
-- (xlsx_tools/helpers.py) is not among the sources under src/: only its
-- caller (src/xlsx_tools/base_xlsx_tool.py) and its unit tests
-- (src/tests/test_xlsx_creation.py) are.  The definitions below are
-- modelled from the specification, with the unit tests as the binding
-- authority where the two disagree.
-- ---------------------------------------------------------------------------

/-- The position map of the scanner: sheet name to (table id to start row). -/
abbrev PosMap := List (String × List (String × Nat))

/-- Nested lookup, all_sheet_positions[SheetName][table_id]. -/
def lookup2 (m : PosMap) (s k : String) : Option Nat :=
  match lookupA m s with
  | some d => lookupA d k
  | none => none

/-- The single-quote character, written by code point. -/
def apos : Char := Char.ofNat 39

/-- Modelled from the spec: the sheet name is wrapped in single quotes in
the output when it contains a space (python: a space in the name). -/
def quoteSheet (s : String) : String :=
  if containsSub s " " then String.mk [apos] ++ s ++ String.mk [apos] else s

/-- Characters admissible in a sheet name inside a formula (letters,
digits, spaces, underscores), modelled from the spec grammar and the unit
tests (names such as Sales Data and My Sheet). -/
def isSheetChar (c : Char) : Bool :=
  c.isAlpha || c.isDigit || c = ' ' || c = '_'

/-- A non-empty digit run and its value. -/
def parseDigits (l : List Char) : Option (Nat × List Char) :=
  let ds := l.takeWhile (fun c => c.isDigit)
  if ds.isEmpty then none
  else some (ds.foldl (fun n c => n * 10 + (c.toNat - 48)) 0, l.drop ds.length)

/-- A non-empty run of upper-case letters (column letters, function name). -/
def parseUpperRun (l : List Char) : Option (String × List Char) :=
  let us := l.takeWhile (fun c => c.isUpper)
  if us.isEmpty then none else some (String.mk us, l.drop us.length)

/-- The table designator T-digits-dot of a reference token. -/
def parseTableId (l : List Char) : Option (String × List Char) :=
  match l with
  | 'T' :: r =>
      match parseDigits r with
      | some (n, r2) =>
          match r2 with
          | '.' :: r3 => some ("T" ++ toString n, r3)
          | _ => none
      | none => none
  | _ => none

/-- A column-and-index pair Col bracket idx bracket. -/
def parseColIdx (l : List Char) : Option (String × Nat × List Char) :=
  match parseUpperRun l with
  | some (col, r) =>
      match r with
      | '[' :: r2 =>
          match parseDigits r2 with
          | some (i, r3) =>
              match r3 with
              | ']' :: r4 => some (col, i, r4)
              | _ => none
          | none => none
      | _ => none
  | none => none

/-- The second endpoint of a range token: colon, table designator,
column-and-index. -/
def parseRangeTail (l : List Char) :
    Option (String × String × Nat × List Char) :=
  match l with
  | ':' :: r =>
      match parseTableId r with
      | some (tid2, r2) =>
          match parseColIdx r2 with
          | some (c2, j, r3) => some (tid2, c2, j, r3)
          | none => none
      | none => none
  | _ => none

/-- The function-call pattern after the table designator:
FUNC ( Col1 [i] : Col2 [j] ). -/
def parseFuncPattern (l : List Char) :
    Option (String × String × Nat × String × Nat × List Char) :=
  match parseUpperRun l with
  | some (fn, r) =>
      match r with
      | '(' :: r2 =>
          match parseColIdx r2 with
          | some (c1, i, r3) =>
              match r3 with
              | ':' :: r4 =>
                  match parseColIdx r4 with
                  | some (c2, j, r5) =>
                      match r5 with
                      | ')' :: r6 => some (fn, c1, i, c2, j, r6)
                      | _ => none
                  | none => none
              | _ => none
          | none => none
      | _ => none
  | none => none

/-- Modelled from the spec: the absolute address of a cross-sheet
single-cell reference, all_sheet_positions row plus one (the header row)
plus the data index, with the sheet name quoted when it has a space. -/
def crossSingleOut (sheet col : String) (start idx : Nat) : String :=
  quoteSheet sheet ++ "!" ++ col ++ toString (start + 1 + idx)

/-- Modelled from the spec: recognize one cross-sheet token (function
pattern, range, or single cell, in that order of specificity) at the head
of the input; on a lookup miss the original token text passes through
unresolved, the policy the spec recommends. -/
def tryCross (l : List Char) (allPos : PosMap) :
    Option (List Char × List Char) :=
  let run := l.takeWhile isSheetChar
  if run.isEmpty then none
  else
    match l.drop run.length with
    | '!' :: r =>
        let sheet := String.mk run
        match parseTableId r with
        | none => none
        | some (tid, r2) =>
            match parseFuncPattern r2 with
            | some (fn, c1, i, c2, j, r3) =>
                match lookup2 allPos sheet tid with
                | some start =>
                    some ((fn ++ "(" ++ quoteSheet sheet ++ "!" ++ c1 ++
                      toString (start + 1 + i) ++ ":" ++ quoteSheet sheet ++
                      "!" ++ c2 ++ toString (start + 1 + j) ++ ")").data, r3)
                | none => some (l.take (l.length - r3.length), r3)
            | none =>
                match parseColIdx r2 with
                | none => none
                | some (c1, i, r3) =>
                    match parseRangeTail r3 with
                    | some (tid2, c2, j, r4) =>
                        match lookup2 allPos sheet tid,
                            lookup2 allPos sheet tid2 with
                        | some s1, some s2 =>
                            some ((quoteSheet sheet ++ "!" ++ c1 ++
                              toString (s1 + 1 + i) ++ ":" ++ c2 ++
                              toString (s2 + 1 + j)).data, r4)
                        | _, _ => some (l.take (l.length - r4.length), r4)
                    | none =>
                        match lookup2 allPos sheet tid with
                        | some start =>
                            some ((crossSingleOut sheet c1 start i).data, r3)
                        | none => some (l.take (l.length - r3.length), r3)
    | _ => none

/-- Modelled from the spec: a local reference with a table designator,
resolved through the local table position map. -/
def tryLocal (l : List Char) (localPos : List (String × Nat)) :
    Option (List Char × List Char) :=
  match parseTableId l with
  | none => none
  | some (tid, r) =>
      match parseColIdx r with
      | none => none
      | some (col, i, r2) =>
          match lookupA localPos tid with
          | some start => some ((col ++ toString (start + 1 + i)).data, r2)
          | none => some (l.take (l.length - r2.length), r2)

/-- Modelled from the spec and the mixed-reference unit test: a bare
column-and-index resolves against the current table, the last entry of
the local position map (falling back to the passed start row when the
local map is empty). -/
def tryBare (l : List Char) (cur : Nat) (localPos : List (String × Nat)) :
    Option (List Char × List Char) :=
  match parseColIdx l with
  | none => none
  | some (col, i, r) =>
      let base :=
        match localPos.getLast? with
        | some kv => kv.2
        | none => cur
      some ((col ++ toString (base + 1 + i)).data, r)

/-- The left-to-right scan of the resolver over the formula text. -/
def adjustGo : Nat → List Char → Nat → List (String × Nat) → PosMap →
    List Char
  | 0, l, _, _, _ => l
  | _ + 1, [], _, _, _ => []
  | fuel + 1, c :: rest, cur, localPos, allPos =>
      match tryCross (c :: rest) allPos with
      | some p => p.1 ++ adjustGo fuel p.2 cur localPos allPos
      | none =>
      match tryLocal (c :: rest) localPos with
      | some p => p.1 ++ adjustGo fuel p.2 cur localPos allPos
      | none =>
      match tryBare (c :: rest) cur localPos with
      | some p => p.1 ++ adjustGo fuel p.2 cur localPos allPos
      | none => c :: adjustGo fuel rest cur localPos allPos

/-- Modelled from the spec: adjust_formula_references of
xlsx_tools/helpers.py (module absent from src/), the Formula Reference
Resolver.  Where the spec example for the plain range form disagrees with
the unit tests test_cross_sheet_range and test_cross_sheet_range_reference
of src/tests/test_xlsx_creation.py, the tests are followed: only the
first endpoint of a plain range is sheet-qualified, while the
function-call pattern qualifies both endpoints. -/
def adjust_formula_references (formula : String) (cur : Nat)
    (localPos : List (String × Nat)) (allPos : PosMap) : String :=
  String.mk (adjustGo (formula.data.length + 1) formula.data cur localPos allPos)

/-- C2 counterexample: on the range of the claim the resolver produces the
range with only its first endpoint sheet-qualified, not the
doubly-qualified form the claim states. -/
theorem range_not_doubly_qualified :
    adjust_formula_references "=SUM(Data!T1.B[0]:T1.B[2])" 10 []
        [("Data", [("T1", 1)])] = "=SUM(Data!B2:B4)" ∧
      adjust_formula_references "=SUM(Data!T1.B[0]:T1.B[2])" 10 []
        [("Data", [("T1", 1)])] ≠ "=SUM(Data!B2:Data!B4)" := by
  decide

/-- C2 amended: a plain cross-sheet range is rewritten with the sheet
qualifier on the first endpoint only, each endpoint row being start row
plus one plus its index; both endpoints are independently sheet-qualified
only in the function-call pattern. -/
theorem range_first_endpoint_qualified :
    adjust_formula_references "=SUM(Data!T1.B[0]:T1.B[2])" 10 []
        [("Data", [("T1", 1)])] = "=SUM(Data!B2:B4)" ∧
      adjust_formula_references "=SUM(Data!T1.B[0]:T1.B[4])" 10 []
        [("Data", [("T1", 1)])] = "=SUM(Data!B2:B6)" ∧
      adjust_formula_references "=Sales!T1.SUM(B[0]:D[0])" 10 []
        [("Sales", [("T1", 3)])] = "=SUM(Sales!B4:Sales!D4)" := by
  decide

/-- C3: a resolved cross-sheet single cell lands on row start plus one
(the header row) plus the index, the sheet name is quoted exactly when it
contains a space, and the three examples of the claim resolve as stated. -/
theorem cross_cell_row_and_quoting (sheet col : String) (start idx : Nat)
    (hsp : containsSub sheet " " = false) :
    crossSingleOut sheet col start idx =
        sheet ++ "!" ++ col ++ toString (start + 1 + idx) ∧
      (∀ sheet2 : String, containsSub sheet2 " " = true →
        crossSingleOut sheet2 col start idx =
          String.mk [apos] ++ sheet2 ++ String.mk [apos] ++ "!" ++ col ++
            toString (start + 1 + idx)) ∧
      adjust_formula_references "=Revenue!T1.B[0]" 10 []
        [("Revenue", [("T1", 1)])] = "=Revenue!B2" ∧
      adjust_formula_references "=Revenue!T1.B[1]" 10 []
        [("Revenue", [("T1", 1)])] = "=Revenue!B3" ∧
      adjust_formula_references "=Sales Data!T1.B[0]" 10 []
        [("Sales Data", [("T1", 1)])] =
          "=" ++ String.mk [apos] ++ "Sales Data" ++ String.mk [apos] ++ "!B2" := by
  refine ⟨?_, ?_, by decide, by decide, by decide⟩
  · simp [crossSingleOut, quoteSheet, hsp]
  · intro sheet2 h2
    simp [crossSingleOut, quoteSheet, h2]

theorem cross_cell_row_and_quoting_witness :
    containsSub "Revenue" " " = false ∧
      crossSingleOut "Revenue" "B" 1 0 =
        "Revenue" ++ "!" ++ "B" ++ toString (1 + 1 + 0) :=
  ⟨by decide, (cross_cell_row_and_quoting "Revenue" "B" 1 0 (by decide)).1⟩

-- ---------------------------------------------------------------------------
-- Two-pass spreadsheet conversion (src/xlsx_tools/base_xlsx_tool.py:
-- SHEET_HEADING_PATTERN, _scan_table_positions, markdown_to_excel).
-- ---------------------------------------------------------------------------

/-- SHEET_HEADING_PATTERN: two hashes, whitespace, the literal Sheet with
a colon, whitespace, then the name (at least one character). -/
def matchSheetHeading (line : String) : Option String :=
  match line.data with
  | '#' :: '#' :: rest =>
      let ws1 := rest.takeWhile isPyWs
      if ws1.isEmpty then none
      else
        let r2 := rest.drop ws1.length
        if startsWithCh r2 "Sheet:".data then
          let r3 := r2.drop 6
          let ws2 := r3.takeWhile isPyWs
          if ws2.isEmpty then none
          else
            let r4 := r3.drop ws2.length
            if r4.isEmpty then none else some (String.mk r4)
        else none
  | _ => none

def DEFAULT_SHEET_NAME : String := "Data Report"

structure ScanState where
  allPositions : PosMap
  currentSheet : String
  currentRow : Nat
  tableCounter : Nat
  firstSheetNamed : Bool
deriving Repr, DecidableEq

def initScanState : ScanState :=
  { allPositions := [(DEFAULT_SHEET_NAME, [])],
    currentSheet := DEFAULT_SHEET_NAME,
    currentRow := 1, tableCounter := 1, firstSheetNamed := false }

/-- The nested write all_positions[current_sheet][table_key] = row; the
sheet key is always present when the source executes this, and the entry
is created when absent. -/
def insert2 (m : PosMap) (s k : String) (v : Nat) : PosMap :=
  match lookupA m s with
  | some d => insertA m s (insertA d k v)
  | none => m ++ [(s, [(k, v)])]

/-- One iteration of the scanner loop of _scan_table_positions: number of
lines consumed (from the current line on) and the updated state. -/
def scanStep (l : String) (rest : List String) (st : ScanState) :
    Nat × ScanState :=
  let line := pyStrip l
  if line = "" then (1, st)
  else
    match matchSheetHeading line with
    | some name0 =>
        let name := pyStrip name0
        if st.firstSheetNamed = false ∧ st.currentRow = 1 then
          let p := popA st.allPositions st.currentSheet
          (1, { st with
                allPositions := insertA p.2 name (p.1.getD []),
                currentSheet := name,
                firstSheetNamed := true })
        else
          (1, { st with
                currentSheet := name,
                currentRow := 1,
                tableCounter := 1,
                allPositions := setdefaultA st.allPositions name [],
                firstSheetNamed := true })
    | none =>
        if strStartsWith line "#" then
          (1, { st with currentRow := st.currentRow + 2 })
        else if strStartsWith line "|" then
          match parse_table (l :: rest) with
          | (some g, n) =>
              if g.isEmpty then (n, st)
              else
                (n, { st with
                  allPositions := insert2 st.allPositions st.currentSheet
                    ("T" ++ toString st.tableCounter) st.currentRow,
                  currentRow := st.currentRow + g.length + 2,
                  tableCounter := st.tableCounter + 1 })
          | (none, n) => (n, st)
        else (1, st)

def scanGo : Nat → List String → ScanState → ScanState
  | 0, _, st => st
  | _ + 1, [], st => st
  | fuel + 1, l :: rest, st =>
      let p := scanStep l rest st
      scanGo fuel ((l :: rest).drop p.1) p.2

/-- Source _scan_table_positions: the dry-run first pass over all lines. -/
def scan_table_positions (lines : List String) : PosMap :=
  (scanGo (lines.length + 1) lines initScanState).allPositions

/-- A cell write: sheet, row, column, value. -/
abbrev Cell := String × Nat × Nat × String

/-- Modelled from the spec: add_table_to_sheet of xlsx_tools/helpers.py
(module absent from src/).  Writes every grid cell from the start row on
(header row first), one column per cell; cell text starting with an
equals sign goes through the Formula Reference Resolver with the current
table start row, the local table positions and the scanned all-sheet
positions.  Returns the cell writes and the next free row, start plus row
count plus two, matching the advancement the scanner uses. -/
def add_table_to_sheet (g : List (List String)) (sheet : String)
    (startRow : Nat) (tp : List (String × Nat)) (allPos : PosMap) :
    List Cell × Nat :=
  let cells := (g.enum.map (fun rc =>
    (rc.2.enum.map (fun cc =>
      let v := if strStartsWith cc.2 "=" then
          adjust_formula_references cc.2 startRow tp allPos
        else cc.2
      (sheet, startRow + rc.1, cc.1 + 1, v))))).flatten
  (cells, startRow + g.length + 2)

structure PlaceState where
  currentSheetName : String
  currentRow : Nat
  tableCounter : Nat
  tablePositions : List (String × Nat)
  firstSheetNamed : Bool
  cells : List Cell
  placedLog : List (String × String × Nat)
deriving Repr, DecidableEq

def initPlaceState : PlaceState :=
  { currentSheetName := DEFAULT_SHEET_NAME, currentRow := 1,
    tableCounter := 1, tablePositions := [], firstSheetNamed := false,
    cells := [], placedLog := [] }

/-- One iteration of the placement loop of markdown_to_excel.  Sheets live
in the cell records by name (renaming the still-empty first sheet is a
pure name change, and openpyxl styling is outside the model).  The
placed-table log records each execution of the source assignment
table_positions[table_key] = current_row together with the sheet it
happens on. -/
def placeStep (l : String) (rest : List String) (st : PlaceState)
    (allPos : PosMap) : Nat × PlaceState :=
  let line := pyStrip l
  if line = "" then (1, st)
  else
    match matchSheetHeading line with
    | some name0 =>
        let name := pyStrip name0
        if st.firstSheetNamed = false ∧ st.currentRow = 1 then
          (1, { st with currentSheetName := name, firstSheetNamed := true })
        else
          (1, { st with
                currentSheetName := name,
                currentRow := 1,
                tableCounter := 1,
                tablePositions := [],
                firstSheetNamed := true })
    | none =>
        if strStartsWith line "#" then
          let headerText := pyStrip (String.mk (line.data.dropWhile (fun c => c = '#')))
          (1, { st with
            cells := st.cells ++
              [(st.currentSheetName, st.currentRow, 1, headerText)],
            currentRow := st.currentRow + 2 })
        else if strStartsWith line "|" then
          match parse_table (l :: rest) with
          | (some g, n) =>
              if g.isEmpty then (n, st)
              else
                let key := "T" ++ toString st.tableCounter
                let tp := insertA st.tablePositions key st.currentRow
                let r := add_table_to_sheet g st.currentSheetName
                  st.currentRow tp allPos
                (n, { st with
                      tablePositions := tp,
                      placedLog := st.placedLog ++
                        [(st.currentSheetName, key, st.currentRow)],
                      cells := st.cells ++ r.1,
                      currentRow := r.2,
                      tableCounter := st.tableCounter + 1 })
          | (none, n) => (n, st)
        else (1, st)

def placeGo : Nat → List String → PlaceState → PosMap → PlaceState
  | 0, _, st, _ => st
  | _ + 1, [], st, _ => st
  | fuel + 1, l :: rest, st, allPos =>
      let p := placeStep l rest st allPos
      placeGo fuel ((l :: rest).drop p.1) p.2 allPos

/-- markdown_to_excel of base_xlsx_tool.py: split into lines, run the
scanner to completion over all of them (pass one), then run the placement
pass over the same lines with the completed position map.  Saving and
uploading the workbook are outside the model. -/
def markdown_to_excel (content : String) : PlaceState :=
  let lines := strSplitOn content "\n"
  let allPos := scan_table_positions lines
  placeGo (lines.length + 1) lines initPlaceState allPos

/-- The last recorded placement of a sheet-and-table pair in the log. -/
def lastLog : List (String × String × Nat) → String → String → Option Nat
  | [], _, _ => none
  | e :: rest, s, k =>
      match lastLog rest s k with
      | some v => some v
      | none => if e.1 = s ∧ e.2.1 = k then some e.2.2 else none

/-- The value of a cell after all writes (the last write wins). -/
def cellAt : List Cell → String → Nat → Nat → Option String
  | [], _, _, _ => none
  | e :: rest, s, r, c =>
      match cellAt rest s r c with
      | some v => some v
      | none =>
          if e.1 = s ∧ e.2.1 = r ∧ e.2.2.1 = c then some e.2.2.2 else none

/-- C10: a non-blank line that is no sheet marker and starts with neither
a hash nor a pipe is consumed without any effect by both passes: exactly
one line consumed and the state (row cursor, table counter, current
sheet, position map, table positions, cells, log) unchanged. -/
theorem other_content_skipped (l : String) (rest : List String)
    (a : ScanState) (b : PlaceState) (allPos : PosMap)
    (h1 : pyStrip l ≠ "") (h2 : matchSheetHeading (pyStrip l) = none)
    (h3 : strStartsWith (pyStrip l) "#" = false)
    (h4 : strStartsWith (pyStrip l) "|" = false) :
    scanStep l rest a = (1, a) ∧ placeStep l rest b allPos = (1, b) := by
  constructor <;> simp [scanStep, placeStep, h1, h2, h3, h4]

theorem other_content_skipped_witness :
    pyStrip "just a paragraph" ≠ "" ∧
      scanStep "just a paragraph" [] initScanState = (1, initScanState) ∧
      placeStep "just a paragraph" [] initPlaceState [] =
        (1, initPlaceState) :=
  ⟨by decide,
    (other_content_skipped "just a paragraph" [] initScanState
      initPlaceState [] (by decide) (by decide) (by decide) (by decide)).1,
    (other_content_skipped "just a paragraph" [] initScanState
      initPlaceState [] (by decide) (by decide) (by decide) (by decide)).2⟩

-- ---------------------------------------------------------------------------
-- Correspondence between the scanner and the placement pass (claim C1)
-- ---------------------------------------------------------------------------

theorem lookupA_insertA {α : Type} (m : List (String × α)) (k key : String)
    (v : α) :
    lookupA (insertA m k v) key = if k = key then some v else lookupA m key := by
  induction m with
  | nil => simp [insertA, lookupA]
  | cons e rest ih =>
      by_cases he : e.1 = k
      · by_cases hkk : k = key <;> simp [insertA, lookupA, he, hkk]
      · by_cases hek : e.1 = key
        · have hkk : ¬ k = key := fun hk => he (hk ▸ hek)
          have hkk2 : ¬ key = k := fun hk => hkk hk.symm
          simp [insertA, lookupA, he, hek, hkk, hkk2]
        · simp [insertA, lookupA, he, hek, ih]

theorem lookupA_append_single {α : Type} (m : List (String × α))
    (k key : String) (v : α) :
    lookupA (m ++ [(k, v)]) key =
      match lookupA m key with
      | some x => some x
      | none => if k = key then some v else none := by
  induction m with
  | nil => simp [lookupA]
  | cons e rest ih =>
      by_cases hek : e.1 = key <;> simp [lookupA, hek, ih]

theorem lookup2_insert2 (m : PosMap) (s k s2 k2 : String) (v : Nat) :
    lookup2 (insert2 m s k v) s2 k2 =
      if s = s2 ∧ k = k2 then some v else lookup2 m s2 k2 := by
  unfold insert2
  cases hms : lookupA m s with
  | some d =>
      by_cases hss : s = s2
      · subst hss
        by_cases hkk : k = k2 <;>
          simp [lookup2, lookupA_insertA, hms, hkk]
      · simp [lookup2, lookupA_insertA, hss, hms]
  | none =>
      by_cases hss : s = s2
      · subst hss
        by_cases hkk : k = k2 <;>
          simp [lookup2, lookupA_append_single, hms, hkk, lookupA]
      · cases hm2 : lookupA m s2 with
        | some d2 => simp [lookup2, lookupA_append_single, hss, hm2]
        | none => simp [lookup2, lookupA_append_single, hss, hm2]

theorem lookup2_setdefault_empty (m : PosMap) (s s2 k2 : String) :
    lookup2 (setdefaultA m s []) s2 k2 = lookup2 m s2 k2 := by
  unfold setdefaultA
  cases hms : lookupA m s with
  | some d => rfl
  | none =>
      unfold lookup2
      rw [lookupA_append_single]
      cases hm2 : lookupA m s2 with
      | some d2 => simp [hm2]
      | none =>
          by_cases hss : s = s2
          · subst hss
            simp [lookupA]
          · simp [hss]

theorem lastLog_append_single (log : List (String × String × Nat))
    (s k s2 k2 : String) (v : Nat) :
    lastLog (log ++ [(s, k, v)]) s2 k2 =
      if s = s2 ∧ k = k2 then some v else lastLog log s2 k2 := by
  induction log with
  | nil =>
      by_cases hss : s = s2 ∧ k = k2 <;> simp [lastLog, hss]
  | cons e rest ih =>
      simp only [List.cons_append, lastLog, List.append_eq, ih]
      by_cases hss : s = s2 ∧ k = k2
      · simp [hss]
      · simp [hss]

theorem lookup2_single_empty (x s k : String) :
    lookup2 [(x, [])] s k = none := by
  by_cases hx : x = s <;> simp [lookup2, lookupA, hx]

/-- The correspondence the two passes maintain while walking the same
lines: equal cursors, counters, sheet and first-sheet flag; the scanner
map agrees with the last placement of every sheet-and-table pair; and
before the first sheet marker the scanner map is the lone default-sheet
entry, still empty while the cursor sits on row one. -/
def CorrStates (a : ScanState) (b : PlaceState) : Prop :=
  a.currentRow = b.currentRow ∧
  a.tableCounter = b.tableCounter ∧
  a.currentSheet = b.currentSheetName ∧
  a.firstSheetNamed = b.firstSheetNamed ∧
  (∀ s k, lookup2 a.allPositions s k = lastLog b.placedLog s k) ∧
  (a.firstSheetNamed = false →
    a.currentSheet = DEFAULT_SHEET_NAME ∧
    ∃ d, a.allPositions = [(DEFAULT_SHEET_NAME, d)] ∧
      (a.currentRow = 1 → d = []))

theorem add_table_snd (g : List (List String)) (s : String) (r : Nat)
    (tp : List (String × Nat)) (ap : PosMap) :
    (add_table_to_sheet g s r tp ap).2 = r + g.length + 2 := rfl

theorem corr_step (l : String) (rest : List String) (a : ScanState)
    (b : PlaceState) (allPos : PosMap) (h : CorrStates a b) :
    (scanStep l rest a).1 = (placeStep l rest b allPos).1 ∧
      CorrStates (scanStep l rest a).2 (placeStep l rest b allPos).2 := by
  obtain ⟨hrow, hctr, hsheet, hnamed, hpos, hshape⟩ := h
  by_cases hempty : pyStrip l = ""
  · have hs : scanStep l rest a = (1, a) := by simp [scanStep, hempty]
    have hp : placeStep l rest b allPos = (1, b) := by simp [placeStep, hempty]
    rw [hs, hp]
    exact ⟨rfl, hrow, hctr, hsheet, hnamed, hpos, hshape⟩
  · cases hm : matchSheetHeading (pyStrip l) with
    | some name0 =>
        by_cases hfn : a.firstSheetNamed = false
        · by_cases h1 : a.currentRow = 1
          · -- rename of the still-empty first sheet
            obtain ⟨hcs, d, hap, hd1⟩ := hshape hfn
            have hd : d = [] := hd1 h1
            subst hd
            have hnb : b.firstSheetNamed = false := hnamed ▸ hfn
            have h1b : b.currentRow = 1 := hrow ▸ h1
            have hs : scanStep l rest a =
                (1, { allPositions := [(pyStrip name0, [])],
                      currentSheet := pyStrip name0,
                      currentRow := a.currentRow,
                      tableCounter := a.tableCounter,
                      firstSheetNamed := true }) := by
              simp [scanStep, hempty, hm, hfn, h1, hap, hcs, popA, insertA]
            have hp : placeStep l rest b allPos =
                (1, { b with
                      currentSheetName := pyStrip name0,
                      firstSheetNamed := true }) := by
              simp [placeStep, hempty, hm, hnb, h1b]
            rw [hs, hp]
            refine ⟨rfl, hrow, hctr, rfl, rfl, ?_, ?_⟩
            · intro s k
              rw [lookup2_single_empty]
              have := hpos s k
              rw [hap, lookup2_single_empty] at this
              exact this
            · intro hcontr
              exact absurd hcontr (by simp)
          · -- a later sheet marker: fresh sheet state
            have h1b : ¬ b.currentRow = 1 := by rw [← hrow]; exact h1
            have hnb : b.firstSheetNamed = false := hnamed ▸ hfn
            have hs : scanStep l rest a =
                (1, { allPositions := setdefaultA a.allPositions (pyStrip name0) [],
                      currentSheet := pyStrip name0,
                      currentRow := 1,
                      tableCounter := 1,
                      firstSheetNamed := true }) := by
              simp [scanStep, hempty, hm, hfn, h1]
            have hp : placeStep l rest b allPos =
                (1, { b with
                      currentSheetName := pyStrip name0,
                      currentRow := 1,
                      tableCounter := 1,
                      tablePositions := [],
                      firstSheetNamed := true }) := by
              simp [placeStep, hempty, hm, hnb, h1b]
            rw [hs, hp]
            refine ⟨rfl, rfl, rfl, rfl, rfl, ?_, ?_⟩
            · intro s k
              rw [lookup2_setdefault_empty]
              exact hpos s k
            · intro hcontr
              exact absurd hcontr (by simp)
        · -- first sheet already named: fresh sheet state
          have hnb : ¬ b.firstSheetNamed = false := by rw [← hnamed]; exact hfn
          have hs : scanStep l rest a =
              (1, { allPositions := setdefaultA a.allPositions (pyStrip name0) [],
                    currentSheet := pyStrip name0,
                    currentRow := 1,
                    tableCounter := 1,
                    firstSheetNamed := true }) := by
            simp [scanStep, hempty, hm, hfn]
          have hp : placeStep l rest b allPos =
              (1, { b with
                    currentSheetName := pyStrip name0,
                    currentRow := 1,
                    tableCounter := 1,
                    tablePositions := [],
                    firstSheetNamed := true }) := by
            simp [placeStep, hempty, hm, hnb]
          rw [hs, hp]
          refine ⟨rfl, rfl, rfl, rfl, rfl, ?_, ?_⟩
          · intro s k
            rw [lookup2_setdefault_empty]
            exact hpos s k
          · intro hcontr
            exact absurd hcontr (by simp)
    | none =>
        by_cases hh : strStartsWith (pyStrip l) "#" = true
        · have hs : scanStep l rest a =
              (1, { a with currentRow := a.currentRow + 2 }) := by
            simp [scanStep, hempty, hm, hh]
          have hp : placeStep l rest b allPos =
              (1, { b with
                    cells := b.cells ++ [(b.currentSheetName, b.currentRow, 1,
                      pyStrip (String.mk ((pyStrip l).data.dropWhile (fun c => c = '#'))))],
                    currentRow := b.currentRow + 2 }) := by
            simp [placeStep, hempty, hm, hh]
          rw [hs, hp]
          refine ⟨rfl, by rw [hrow], hctr, hsheet, hnamed, hpos, ?_⟩
          intro hf
          obtain ⟨hcs, d, hap, _⟩ := hshape hf
          exact ⟨hcs, d, hap, fun habs =>
            absurd habs (show ¬ (a.currentRow + 2 = 1) by omega)⟩
        · by_cases hpipe : strStartsWith (pyStrip l) "|" = true
          · rcases hpt : parse_table (l :: rest) with ⟨o, n⟩
            cases o with
            | none =>
                have hs : scanStep l rest a = (n, a) := by
                  simp [scanStep, hempty, hm, hh, hpipe, hpt]
                have hp : placeStep l rest b allPos = (n, b) := by
                  simp [placeStep, hempty, hm, hh, hpipe, hpt]
                rw [hs, hp]
                exact ⟨rfl, hrow, hctr, hsheet, hnamed, hpos, hshape⟩
            | some g =>
                by_cases hg : g.isEmpty = true
                · have hs : scanStep l rest a = (n, a) := by
                    simp [scanStep, hempty, hm, hh, hpipe, hpt, hg]
                  have hp : placeStep l rest b allPos = (n, b) := by
                    simp [placeStep, hempty, hm, hh, hpipe, hpt, hg]
                  rw [hs, hp]
                  exact ⟨rfl, hrow, hctr, hsheet, hnamed, hpos, hshape⟩
                · have hs : scanStep l rest a =
                      (n, { allPositions := insert2 a.allPositions a.currentSheet
                              ("T" ++ toString a.tableCounter) a.currentRow,
                            currentSheet := a.currentSheet,
                            currentRow := a.currentRow + g.length + 2,
                            tableCounter := a.tableCounter + 1,
                            firstSheetNamed := a.firstSheetNamed }) := by
                    simp [scanStep, hempty, hm, hh, hpipe, hpt, hg]
                  have hp : placeStep l rest b allPos =
                      (n, { b with
                            tablePositions := insertA b.tablePositions
                              ("T" ++ toString b.tableCounter) b.currentRow,
                            placedLog := b.placedLog ++ [(b.currentSheetName,
                              "T" ++ toString b.tableCounter, b.currentRow)],
                            cells := b.cells ++ (add_table_to_sheet g
                              b.currentSheetName b.currentRow
                              (insertA b.tablePositions
                                ("T" ++ toString b.tableCounter) b.currentRow)
                              allPos).1,
                            currentRow := b.currentRow + g.length + 2,
                            tableCounter := b.tableCounter + 1 }) := by
                    simp [placeStep, hempty, hm, hh, hpipe, hpt, hg, add_table_snd]
                  rw [hs, hp]
                  refine ⟨rfl, by rw [hrow], by rw [hctr], hsheet, hnamed, ?_, ?_⟩
                  · intro s k
                    rw [lookup2_insert2, lastLog_append_single, hsheet, hctr,
                      hrow, hpos s k]
                  · intro hf
                    obtain ⟨hcs, d, hap, _⟩ := hshape hf
                    refine ⟨hcs, insertA d ("T" ++ toString a.tableCounter)
                      a.currentRow, ?_, fun habs => absurd habs
                        (show ¬ (a.currentRow + g.length + 2 = 1) by omega)⟩
                    simp [insert2, hap, hcs, lookupA, insertA]
          · have hs : scanStep l rest a = (1, a) := by
              simp [scanStep, hempty, hm, hh, hpipe]
            have hp : placeStep l rest b allPos = (1, b) := by
              simp [placeStep, hempty, hm, hh, hpipe]
            rw [hs, hp]
            exact ⟨rfl, hrow, hctr, hsheet, hnamed, hpos, hshape⟩

theorem corr_go (fuel : Nat) (L : List String) (a : ScanState)
    (b : PlaceState) (allPos : PosMap) (h : CorrStates a b) :
    CorrStates (scanGo fuel L a) (placeGo fuel L b allPos) := by
  induction fuel generalizing L a b with
  | zero => exact h
  | succ fuel ih =>
      cases L with
      | nil => exact h
      | cons l rest =>
          have hs := corr_step l rest a b allPos h
          simp only [scanGo, placeGo]
          rw [← hs.1]
          exact ih _ _ _ hs.2

theorem corr_init : CorrStates initScanState initPlaceState := by
  refine ⟨rfl, rfl, rfl, rfl, ?_, ?_⟩
  · intro s k
    show lookup2 [(DEFAULT_SHEET_NAME, [])] s k = lastLog [] s k
    rw [lookup2_single_empty]
    rfl
  · intro _
    exact ⟨rfl, [], rfl, fun _ => rfl⟩

/-- A document whose first sheet holds a formula referencing a sheet that
appears later in source order (forward reference). -/
def fwdDoc : String :=
  "## Sheet: Dashboard\n\n| Metric | Value |\n|--------|-------|\n| Total | =Details!T1.B[0] |\n\n## Sheet: Details\n\n| Item | Amount |\n|------|--------|\n| Rent | 3000 |"

/-- The same two sheets in the opposite source order (backward reference). -/
def bwdDoc : String :=
  "## Sheet: Details\n\n| Item | Amount |\n|------|--------|\n| Rent | 3000 |\n\n## Sheet: Dashboard\n\n| Metric | Value |\n|--------|-------|\n| Total | =Details!T1.B[0] |"

/-- C1: markdown_to_excel runs the scanner to completion over all lines
before the placement pass writes any cell (it is scan then place by
construction), and for every document the scanner map entry of every
sheet-and-table pair equals the row of that pair in the placement log,
the rows at which the placement pass actually placed the tables (its last
placement of the pair, which is the only one when no sheet name repeats);
consequently the forward-reference document and its source-reversed twin
both resolve the cross-sheet formula to the same address. -/
theorem scan_rows_equal_placement_rows :
    (∀ content s k,
      lookup2 (scan_table_positions (strSplitOn content "\n")) s k =
        lastLog (markdown_to_excel content).placedLog s k) ∧
      cellAt (markdown_to_excel fwdDoc).cells "Dashboard" 2 2 =
        some "=Details!B2" ∧
      cellAt (markdown_to_excel bwdDoc).cells "Dashboard" 2 2 =
        some "=Details!B2" := by
  refine ⟨?_, by decide, by decide⟩
  intro content s k
  have h := corr_go ((strSplitOn content "\n").length + 1)
    (strSplitOn content "\n") initScanState initPlaceState
    (scan_table_positions (strSplitOn content "\n")) corr_init
  exact h.2.2.2.2.1 s k
